import Mathlib

/-!
# INFO::InfoBool — cached boolean conditions (xbmc/interfaces/info/InfoBool.h)

A shallow embedding of the class `InfoBool` and of the declarations of
`InfoExpression` found in the header, followed by theorems about the caching
discipline of `InfoBool::Get`, the equality of instances, the evaluation of
associative groups and the operator codes.

Conventions of the embedding

* `unsigned int` is a natural number below `2 ^ 32`; the subtraction of `Get`
  is written out modulo `2 ^ 32` (`usub32`).
* `const CGUIListItem *` is `Option Item`; `none` is the `NULL` pointer.
* `Update` is virtual.  An override sees the protected members of the base
  class (`m_value`, `m_context`, `m_listItemDependent`) and the state of its
  own class, but not the private members `m_expression` and `m_lastUpdate`.
  It is therefore a function on `Members`, and `InfoBool.callUpdate` writes
  its result back into the object.  An override is taken not to call `Get` on
  the object it is updating.
* `Get` reports, next to the returned boolean and the object after the call,
  the list of the `Update` invocations it made, each with its argument.
-/

namespace INFO

/-- Width of `unsigned int`. -/
def UINT_MODULUS : Nat := 4294967296

/-- Subtraction of two `unsigned int` values, as C++ computes it: modulo `2 ^ 32`. -/
def usub32 (a b : Nat) : Nat := (a + UINT_MODULUS - b) % UINT_MODULUS

/-- The part of an object that an override of `Update` can read and write: the
protected members of `InfoBool` and `derived`, the state that belongs to the
derived class (and whatever else its resolver consults). -/
structure Members (σ : Type) where
  m_value : Bool
  m_context : Int
  m_listItemDependent : Bool
  derived : σ

/-- The class `InfoBool`: the members of lines 77-84 and the state of the derived class. -/
structure InfoBool (σ : Type) where
  m_value : Bool
  m_context : Int
  m_listItemDependent : Bool
  m_expression : String
  m_lastUpdate : Nat
  derived : σ

/-- An implementation of the virtual `void Update(const CGUIListItem *item)`. -/
abbrev UpdateFn (Item σ : Type) : Type := Option Item → Members σ → Members σ

/-- The body of `InfoBool::Update` itself, which is empty. -/
def InfoBool.Update {Item σ : Type} : UpdateFn Item σ := fun _ m => m

/-- The constructor `InfoBool(const CStdString &expression, int context)`;
`d` is the state the derived class starts with.  (Named `construct`: inside the
namespace of the class the name `InfoBool` would shadow the type.) -/
def InfoBool.construct {σ : Type} (expression : String) (context : Int) (d : σ) : InfoBool σ :=
  { m_value := false
    m_context := context
    m_listItemDependent := false
    m_expression := expression
    m_lastUpdate := 0
    derived := d }

/-- The members visible to `Update`. -/
def InfoBool.members {σ : Type} (s : InfoBool σ) : Members σ :=
  { m_value := s.m_value
    m_context := s.m_context
    m_listItemDependent := s.m_listItemDependent
    derived := s.derived }

/-- One invocation `Update(item)` on the object `s`. -/
def InfoBool.callUpdate {Item σ : Type} (U : UpdateFn Item σ) (item : Option Item)
    (s : InfoBool σ) : InfoBool σ :=
  { m_value := (U item s.members).m_value
    m_context := (U item s.members).m_context
    m_listItemDependent := (U item s.members).m_listItemDependent
    m_expression := s.m_expression
    m_lastUpdate := s.m_lastUpdate
    derived := (U item s.members).derived }

/-- What a call of `Get` yields: the returned boolean, the object after the
call, and the arguments of the `Update` invocations made, in order. -/
structure GetResult (Item σ : Type) where
  ret : Bool
  state : InfoBool σ
  calls : List (Option Item)

/-- The method `bool Get(unsigned int time, const CGUIListItem *item = NULL)`, lines 56-66. -/
def InfoBool.Get {Item σ : Type} (U : UpdateFn Item σ) (s : InfoBool σ) (time : Nat)
    (item : Option Item) : GetResult Item σ :=
  if item.isSome && s.m_listItemDependent then
    { ret := (s.callUpdate U item).m_value
      state := s.callUpdate U item
      calls := [item] }
  else if usub32 time s.m_lastUpdate > 0 then
    { ret := (s.callUpdate U none).m_value
      state := { s.callUpdate U none with m_lastUpdate := time }
      calls := [none] }
  else
    { ret := s.m_value
      state := s
      calls := [] }

/-- Modelled from the spec: the body of `InfoBool::operator==`, which the header
only declares (line 68).  "Two CachedBool values are equal iff `context`
matches and `sourceText` matches." -/
def InfoBool.operatorEq {σ : Type} (left right : InfoBool σ) : Bool :=
  left.m_context == right.m_context && left.m_expression == right.m_expression

/-- The enumeration `InfoExpression::operator_t`, lines 110-118. -/
inductive operator_t where
  | OPERATOR_NONE
  | OPERATOR_LB
  | OPERATOR_RB
  | OPERATOR_OR
  | OPERATOR_AND
  | OPERATOR_NOT
  deriving DecidableEq, Repr

/-- The integer value of each enumerator of `operator_t`: the first is given as
`0`, every following one is one more than its predecessor. -/
def operator_t.code : operator_t → Nat
  | .OPERATOR_NONE => 0
  | .OPERATOR_LB => 1
  | .OPERATOR_RB => 2
  | .OPERATOR_OR => 3
  | .OPERATOR_AND => 4
  | .OPERATOR_NOT => 5

/-- The nodes of the expression tree, lines 128-159: `InfoLeaf` with `m_info`
and `m_invert`, `InfoAssociativeGroup` with `m_and_not_or` and `m_children`. -/
inductive InfoSubexpression where
  | InfoLeaf (m_info : Nat) (m_invert : Bool)
  | InfoAssociativeGroup (m_and_not_or : Bool) (m_children : List InfoSubexpression)

/-- The resolver of atomic conditions: condition id and optional item to a boolean. -/
abbrev Resolver (Item : Type) : Type := Nat → Option Item → Bool

mutual
/-- Modelled from the spec: the bodies of `InfoLeaf::Evaluate` and
`InfoAssociativeGroup::Evaluate`, which the header only declares (lines 142
and 155).  A leaf resolves its condition and negates the result when `invert`
is set; a group evaluates its children under left-to-right short-circuit
semantics.  The second component lists the nodes on which `Evaluate` was
invoked, in the order of invocation. -/
def InfoSubexpression.Evaluate {Item : Type} (R : Resolver Item) (item : Option Item) :
    InfoSubexpression → Bool × List InfoSubexpression
  | .InfoLeaf m_info m_invert =>
    ((if m_invert then !(R m_info item) else R m_info item), [.InfoLeaf m_info m_invert])
  | .InfoAssociativeGroup m_and_not_or m_children =>
    ((InfoSubexpression.EvaluateChildren R item m_and_not_or m_children).1,
      .InfoAssociativeGroup m_and_not_or m_children ::
        (InfoSubexpression.EvaluateChildren R item m_and_not_or m_children).2)
/-- Modelled from the spec: the loop over the children of a group.  AND
(`and_not_or = true`): "evaluate children in order, return false as soon as one
child is false, evaluating no further children"; OR: "return true as soon as
one child is true". -/
def InfoSubexpression.EvaluateChildren {Item : Type} (R : Resolver Item) (item : Option Item)
    (and_not_or : Bool) : List InfoSubexpression → Bool × List InfoSubexpression
  | [] => (and_not_or, [])
  | c :: cs =>
    match and_not_or with
    | true =>
      if (InfoSubexpression.Evaluate R item c).1 = false then
        (false, (InfoSubexpression.Evaluate R item c).2)
      else
        ((InfoSubexpression.EvaluateChildren R item true cs).1,
          (InfoSubexpression.Evaluate R item c).2 ++
            (InfoSubexpression.EvaluateChildren R item true cs).2)
    | false =>
      if (InfoSubexpression.Evaluate R item c).1 = true then
        (true, (InfoSubexpression.Evaluate R item c).2)
      else
        ((InfoSubexpression.EvaluateChildren R item false cs).1,
          (InfoSubexpression.Evaluate R item c).2 ++
            (InfoSubexpression.EvaluateChildren R item false cs).2)
end

/-- The children of a group on which `Evaluate` is invoked when each child `c`
has the value `v c`: for AND the children before the first false one and that
one itself, for OR the children before the first true one and that one. -/
def evaluatedChildren {α : Type} (v : α → Bool) (and_not_or : Bool) (cs : List α) : List α :=
  cs.takeWhile (fun c => v c == and_not_or) ++ (cs.dropWhile (fun c => v c == and_not_or)).take 1

/-- The children of a group on which `Evaluate` is not invoked. -/
def skippedChildren {α : Type} (v : α → Bool) (and_not_or : Bool) (cs : List α) : List α :=
  (cs.dropWhile (fun c => v c == and_not_or)).drop 1

/-- An `Update` whose result depends on the item: true with an item, false without. -/
def updateFromItem : UpdateFn Nat Unit :=
  fun item m => { m with m_value := item.isSome }

/-- An item-dependent instance last refreshed at time `5` with cached value `false`. -/
def itemDependentInstance : InfoBool Unit :=
  { m_value := false
    m_context := 0
    m_listItemDependent := true
    m_expression := "ListItem.IsSelected"
    m_lastUpdate := 5
    derived := () }

/-! ## Unsigned subtraction -/

theorem usub32_self (a : Nat) : usub32 a a = 0 := by
  unfold usub32 UINT_MODULUS
  omega

theorem usub32_pos_of_ne {a b : Nat} (ha : a < UINT_MODULUS) (hb : b < UINT_MODULUS)
    (hne : a ≠ b) : usub32 a b > 0 := by
  unfold usub32
  unfold UINT_MODULUS at *
  omega

theorem ne_of_usub32_pos {a b : Nat} (h : usub32 a b > 0) : a ≠ b := by
  intro hab
  subst hab
  rw [usub32_self] at h
  exact Nat.lt_irrefl 0 h

/-! ## The three paths of `Get` -/

theorem Get_item_path {Item σ : Type} (U : UpdateFn Item σ) (s : InfoBool σ) (time : Nat)
    (i : Item) (hdep : s.m_listItemDependent = true) :
    s.Get U time (some i) =
      { ret := (s.callUpdate U (some i)).m_value
        state := s.callUpdate U (some i)
        calls := [some i] } := by
  simp [InfoBool.Get, hdep]

theorem Get_refresh_path {Item σ : Type} (U : UpdateFn Item σ) (s : InfoBool σ) (time : Nat)
    (item : Option Item) (hpath : item = none ∨ s.m_listItemDependent = false)
    (hpos : usub32 time s.m_lastUpdate > 0) :
    s.Get U time item =
      { ret := (s.callUpdate U none).m_value
        state := { s.callUpdate U none with m_lastUpdate := time }
        calls := [none] } := by
  rcases hpath with h | h <;> simp [InfoBool.Get, h, hpos]

theorem Get_cached_path {Item σ : Type} (U : UpdateFn Item σ) (s : InfoBool σ) (time : Nat)
    (item : Option Item) (hpath : item = none ∨ s.m_listItemDependent = false)
    (hzero : ¬ usub32 time s.m_lastUpdate > 0) :
    s.Get U time item = { ret := s.m_value, state := s, calls := [] } := by
  rcases hpath with h | h <;> simp [InfoBool.Get, h, hzero]

theorem callUpdate_lastUpdate {Item σ : Type} (U : UpdateFn Item σ) (item : Option Item)
    (s : InfoBool σ) : (s.callUpdate U item).m_lastUpdate = s.m_lastUpdate := rfl

/-! ## The caching contract of `Get` -/

/-- C1: when `time` differs from `m_lastUpdate` (both 32-bit unsigned, so also
when `time` is the smaller one and the subtraction wraps) and the call does not
take the item-dependent path, `Get(time, item)` invokes `Update(NULL)` exactly
once, sets `m_lastUpdate` to `time`, and returns the `m_value` that `Update`
left behind. -/
theorem Get_frame_boundary_refresh {Item σ : Type} (U : UpdateFn Item σ) (s : InfoBool σ)
    (time : Nat) (item : Option Item)
    (htime : time < UINT_MODULUS) (hlast : s.m_lastUpdate < UINT_MODULUS)
    (hne : time ≠ s.m_lastUpdate)
    (hpath : item = none ∨ s.m_listItemDependent = false) :
    (s.Get U time item).calls = [none] ∧
    (s.Get U time item).state = { s.callUpdate U none with m_lastUpdate := time } ∧
    (s.Get U time item).state.m_lastUpdate = time ∧
    (s.Get U time item).ret = (s.callUpdate U none).m_value ∧
    (s.Get U time item).ret = (s.Get U time item).state.m_value := by
  rw [Get_refresh_path U s time item hpath (usub32_pos_of_ne htime hlast hne)]
  exact ⟨rfl, rfl, rfl, rfl, rfl⟩

/-- C1 at a concrete input: the instance last refreshed at time `5` is asked at
the smaller time `3`, where the unsigned subtraction wraps. -/
theorem Get_frame_boundary_refresh_witness :
    (3 < UINT_MODULUS ∧ itemDependentInstance.m_lastUpdate < UINT_MODULUS ∧
      3 ≠ itemDependentInstance.m_lastUpdate) ∧
    (itemDependentInstance.Get updateFromItem 3 none).calls = [none] ∧
    (itemDependentInstance.Get updateFromItem 3 none).state.m_lastUpdate = 3 :=
  ⟨⟨by decide, by decide, by decide⟩,
    (Get_frame_boundary_refresh updateFromItem itemDependentInstance 3 none
      (by decide) (by decide) (by decide) (Or.inl rfl)).1,
    (Get_frame_boundary_refresh updateFromItem itemDependentInstance 3 none
      (by decide) (by decide) (by decide) (Or.inl rfl)).2.2.1⟩

/-- C2: after one call `Get(t, NULL)`, a second call `Get(t, NULL)` with the
same `t` invokes `Update` zero times, returns the same boolean as the first
call, and leaves the object (so `m_value` and `m_lastUpdate`) unchanged. -/
theorem Get_same_frame_idempotent {Item σ : Type} (U : UpdateFn Item σ) (s : InfoBool σ)
    (t : Nat) :
    ((s.Get U t none).state.Get U t none).calls = ([] : List (Option Item)) ∧
    ((s.Get U t none).state.Get U t none).ret = (s.Get U t none).ret ∧
    ((s.Get U t none).state.Get U t none).state = (s.Get U t none).state ∧
    ((s.Get U t none).state.Get U t none).state.m_value = (s.Get U t none).state.m_value ∧
    ((s.Get U t none).state.Get U t none).state.m_lastUpdate =
      (s.Get U t none).state.m_lastUpdate := by
  by_cases hpos : usub32 t s.m_lastUpdate > 0
  · rw [Get_refresh_path U s t none (Or.inl rfl) hpos]
    rw [Get_cached_path U _ t none (Or.inl rfl) (by simp [usub32_self])]
    exact ⟨rfl, rfl, rfl, rfl, rfl⟩
  · rw [Get_cached_path U s t none (Or.inl rfl) hpos]
    rw [Get_cached_path U s t none (Or.inl rfl) hpos]
    exact ⟨rfl, rfl, rfl, rfl, rfl⟩

/-- C3: on an instance with `m_listItemDependent` true and a non-NULL item,
`Get(time, item)` invokes `Update` exactly once, with that item, whatever
`time` is, and returns the `m_value` that this `Update` produced. -/
theorem Get_item_dependent_bypass {Item σ : Type} (U : UpdateFn Item σ) (s : InfoBool σ)
    (time : Nat) (i : Item) (hdep : s.m_listItemDependent = true) :
    (s.Get U time (some i)).calls = [some i] ∧
    (s.Get U time (some i)).state = s.callUpdate U (some i) ∧
    (s.Get U time (some i)).ret = (s.callUpdate U (some i)).m_value ∧
    (s.Get U time (some i)).ret = (U (some i) s.members).m_value := by
  rw [Get_item_path U s time i hdep]
  exact ⟨rfl, rfl, rfl, rfl⟩

/-- C3 at a concrete input: `time` equals `m_lastUpdate` and `Update` still runs. -/
theorem Get_item_dependent_bypass_witness :
    itemDependentInstance.m_listItemDependent = true ∧
    (itemDependentInstance.Get updateFromItem 5 (some 9)).calls = [some 9] ∧
    (itemDependentInstance.Get updateFromItem 5 (some 9)).ret = true :=
  ⟨rfl, (Get_item_dependent_bypass updateFromItem itemDependentInstance 5 9 rfl).1,
    (Get_item_dependent_bypass updateFromItem itemDependentInstance 5 9 rfl).2.2.2⟩

/-- C4, the code at the failing input: the member `m_listItemDependent` is
documented "do not cache if a listitem pointer is given", and the item branch
of `Get` leaves `m_lastUpdate` alone, yet `Update(item)` writes the per-item
result into `m_value`.  On the item-dependent instance cached at frame `5`
with value `false`, and an `Update` whose result depends on the item, the
per-item call `Get(7, item)` makes the item-less `Get(5, NULL)` of the cached
frame return `true` instead of `false`, without any `Update`; so the property
of C4 does not hold of the code. -/
theorem Get_item_call_changes_cached_value :
    (itemDependentInstance.m_listItemDependent = true ∧
      itemDependentInstance.m_lastUpdate = 5 ∧
      (itemDependentInstance.Get updateFromItem 5 none).ret = false ∧
      ((itemDependentInstance.Get updateFromItem 7 (some 0)).state.Get updateFromItem 5
        none).ret = true ∧
      ((itemDependentInstance.Get updateFromItem 7 (some 0)).state.Get updateFromItem 5
        none).calls = []) ∧
    ¬ (∀ (U : UpdateFn Nat Unit) (s : InfoBool Unit) (t1 : Nat) (i : Nat),
        s.m_listItemDependent = true →
        ((s.Get U t1 (some i)).state.Get U s.m_lastUpdate none).ret =
          (s.Get U s.m_lastUpdate none).ret) := by
  refine ⟨⟨rfl, rfl, by decide, by decide, by decide⟩, ?_⟩
  intro h
  exact absurd (h updateFromItem itemDependentInstance 7 0 rfl) (by decide)

/-- C5: on an instance with `m_listItemDependent` false, `Get(time, item)` is
`Get(time, NULL)`: the same returned boolean, the same resulting object and
the same `Update` invocations, which are none at all, or the single
`Update(NULL)`, the latter only when `time` differs from `m_lastUpdate`. -/
theorem Get_ignores_item_when_not_dependent {Item σ : Type} (U : UpdateFn Item σ)
    (s : InfoBool σ) (time : Nat) (item : Option Item)
    (hdep : s.m_listItemDependent = false) :
    s.Get U time item = s.Get U time none ∧
    (s.Get U time item).ret = (s.Get U time none).ret ∧
    (s.Get U time item).state.m_value = (s.Get U time none).state.m_value ∧
    (s.Get U time item).state.m_lastUpdate = (s.Get U time none).state.m_lastUpdate ∧
    ((s.Get U time item).calls = [] ∨
      ((s.Get U time item).calls = [none] ∧ time ≠ s.m_lastUpdate)) := by
  have heq : s.Get U time item = s.Get U time none := by
    simp [InfoBool.Get, hdep]
  refine ⟨heq, by rw [heq], by rw [heq], by rw [heq], ?_⟩
  by_cases hpos : usub32 time s.m_lastUpdate > 0
  · rw [Get_refresh_path U s time item (Or.inr hdep) hpos]
    exact Or.inr ⟨rfl, ne_of_usub32_pos hpos⟩
  · rw [Get_cached_path U s time item (Or.inr hdep) hpos]
    exact Or.inl rfl

/-- C5 at a concrete input: a freshly constructed instance asked with an item. -/
theorem Get_ignores_item_when_not_dependent_witness :
    (InfoBool.construct "Player.HasMedia" 0 ()).m_listItemDependent = false ∧
    (InfoBool.construct "Player.HasMedia" 0 ()).Get updateFromItem 4 (some 1) =
      (InfoBool.construct "Player.HasMedia" 0 ()).Get updateFromItem 4 none :=
  ⟨rfl, (Get_ignores_item_when_not_dependent updateFromItem
    (InfoBool.construct "Player.HasMedia" 0 ()) 4 (some 1) rfl).1⟩

/-- C9: the constructor sets `m_value = false`, `m_lastUpdate = 0` and
`m_listItemDependent = false`; the first call `Get(0, item)` on the fresh
object invokes `Update` zero times and returns false for every `Update`, and a
first call `Get(t, item)` with `t != 0` invokes `Update(NULL)` exactly once. -/
theorem Get_on_fresh_instance {Item σ : Type} (U : UpdateFn Item σ) (expression : String)
    (context : Int) (d : σ) (item : Option Item) (t : Nat)
    (ht : t ≠ 0) (hlt : t < UINT_MODULUS) :
    (InfoBool.construct expression context d).m_value = false ∧
    (InfoBool.construct expression context d).m_lastUpdate = 0 ∧
    (InfoBool.construct expression context d).m_listItemDependent = false ∧
    ((InfoBool.construct expression context d).Get U 0 item).calls = [] ∧
    ((InfoBool.construct expression context d).Get U 0 item).ret = false ∧
    ((InfoBool.construct expression context d).Get U t item).calls = [none] := by
  have h0 : (InfoBool.construct expression context d).m_lastUpdate < UINT_MODULUS := by
    show 0 < UINT_MODULUS
    decide
  refine ⟨rfl, rfl, rfl, ?_, ?_, ?_⟩
  · rw [Get_cached_path U _ 0 item (Or.inr rfl) (by simp [InfoBool.construct, usub32_self])]
  · rw [Get_cached_path U _ 0 item (Or.inr rfl) (by simp [InfoBool.construct, usub32_self])]
    rfl
  · rw [Get_refresh_path U _ t item (Or.inr rfl)
      (usub32_pos_of_ne hlt h0 ht)]

/-- C9 at a concrete input: first calls at time `0` and at time `16`. -/
theorem Get_on_fresh_instance_witness :
    ((16 : Nat) ≠ 0 ∧ 16 < UINT_MODULUS) ∧
    ((InfoBool.construct "Window.IsActive(home)" 10000 ()).Get updateFromItem 0
      (some 2)).calls = [] ∧
    ((InfoBool.construct "Window.IsActive(home)" 10000 ()).Get updateFromItem 16
      (some 2)).calls = [none] :=
  ⟨⟨by decide, by decide⟩,
    (Get_on_fresh_instance updateFromItem "Window.IsActive(home)" 10000 () (some 2) 16
      (by decide) (by decide)).2.2.2.1,
    (Get_on_fresh_instance updateFromItem "Window.IsActive(home)" 10000 () (some 2) 16
      (by decide) (by decide)).2.2.2.2.2⟩

/-- C10: on an instance with `m_listItemDependent` true and a non-NULL item,
`Get(time, item)` leaves `m_lastUpdate` unchanged, so a later `Get(time2, NULL)`
with `time2` different from the old `m_lastUpdate` invokes `Update(NULL)`
exactly once (for every `time2`, in particular for `time2 = time`). -/
theorem Get_item_path_keeps_lastUpdate {Item σ : Type} (U : UpdateFn Item σ) (s : InfoBool σ)
    (time time2 : Nat) (i : Item) (hdep : s.m_listItemDependent = true)
    (htime : time2 < UINT_MODULUS) (hlast : s.m_lastUpdate < UINT_MODULUS)
    (hne : time2 ≠ s.m_lastUpdate) :
    (s.Get U time (some i)).state.m_lastUpdate = s.m_lastUpdate ∧
    ((s.Get U time (some i)).state.Get U time2 none).calls = [none] ∧
    ((s.Get U time (some i)).state.Get U time2 none).state.m_lastUpdate = time2 := by
  rw [Get_item_path U s time i hdep]
  rw [Get_refresh_path U (s.callUpdate U (some i)) time2 none (Or.inl rfl)
    (usub32_pos_of_ne htime hlast hne)]
  exact ⟨rfl, rfl, rfl⟩

/-- C10 at a concrete input: a per-item call at time `8`, then an item-less one at `8`. -/
theorem Get_item_path_keeps_lastUpdate_witness :
    (itemDependentInstance.m_listItemDependent = true ∧ 8 < UINT_MODULUS ∧
      itemDependentInstance.m_lastUpdate < UINT_MODULUS ∧
      8 ≠ itemDependentInstance.m_lastUpdate) ∧
    (itemDependentInstance.Get updateFromItem 8 (some 3)).state.m_lastUpdate = 5 ∧
    ((itemDependentInstance.Get updateFromItem 8 (some 3)).state.Get updateFromItem 8
      none).calls = [none] :=
  ⟨⟨rfl, by decide, by decide, by decide⟩,
    (Get_item_path_keeps_lastUpdate updateFromItem itemDependentInstance 8 8 3 rfl
      (by decide) (by decide) (by decide)).1,
    (Get_item_path_keeps_lastUpdate updateFromItem itemDependentInstance 8 8 3 rfl
      (by decide) (by decide) (by decide)).2.1⟩

/-! ## Equality of instances -/

/-- C6: `a == b` holds exactly when the contexts are equal and the expressions
are equal as text; two instances constructed from `(context, text)` pairs are
equal exactly when the pairs are, so instances built from the same pair are
equal and "A and B" is not equal to "B and A" in the same context. -/
theorem operatorEq_iff_context_and_text {σ : Type} (a b : InfoBool σ) :
    (a.operatorEq b = true ↔ a.m_context = b.m_context ∧ a.m_expression = b.m_expression) ∧
    (∀ (e1 e2 : String) (c1 c2 : Int) (d1 d2 : σ),
      (InfoBool.construct e1 c1 d1).operatorEq (InfoBool.construct e2 c2 d2) = true ↔
        c1 = c2 ∧ e1 = e2) ∧
    (∀ (e : String) (c : Int) (d1 d2 : σ),
      (InfoBool.construct e c d1).operatorEq (InfoBool.construct e c d2) = true) ∧
    (∀ (c : Int) (d1 d2 : σ),
      (InfoBool.construct "A and B" c d1).operatorEq (InfoBool.construct "B and A" c d2) =
        false) := by
  refine ⟨?_, ?_, ?_, ?_⟩
  · simp [InfoBool.operatorEq]
  · intro e1 e2 c1 c2 d1 d2
    simp [InfoBool.operatorEq, InfoBool.construct]
  · intro e c d1 d2
    simp [InfoBool.operatorEq, InfoBool.construct]
  · intro c d1 d2
    simp [InfoBool.operatorEq, InfoBool.construct]

/-! ## Operator codes -/

/-- C8: the codes of `operator_t` follow the precedence: `OPERATOR_NOT` is
above `OPERATOR_AND`, which is above `OPERATOR_OR`; the two parentheses and
`OPERATOR_NONE` are below every logical operator; the six codes are pairwise
distinct. -/
theorem operator_codes_ordered_by_precedence :
    operator_t.OPERATOR_NOT.code > operator_t.OPERATOR_AND.code ∧
    operator_t.OPERATOR_AND.code > operator_t.OPERATOR_OR.code ∧
    (∀ p ∈ [operator_t.OPERATOR_LB, operator_t.OPERATOR_RB, operator_t.OPERATOR_NONE],
      ∀ l ∈ [operator_t.OPERATOR_OR, operator_t.OPERATOR_AND, operator_t.OPERATOR_NOT],
        p.code < l.code) ∧
    ([operator_t.OPERATOR_NONE, operator_t.OPERATOR_LB, operator_t.OPERATOR_RB,
      operator_t.OPERATOR_OR, operator_t.OPERATOR_AND, operator_t.OPERATOR_NOT].map
        operator_t.code).Nodup ∧
    Function.Injective operator_t.code := by
  refine ⟨by decide, by decide, by decide, by decide, ?_⟩
  intro a b h
  cases a <;> cases b <;> first | rfl | exact absurd h (by decide)

/-! ## Evaluation of associative groups -/

theorem EvaluateChildren_fst {Item : Type} (R : Resolver Item) (item : Option Item)
    (b : Bool) (cs : List InfoSubexpression) :
    ((InfoSubexpression.EvaluateChildren R item b cs).1 = b ↔
      ∀ c ∈ cs, (InfoSubexpression.Evaluate R item c).1 = b) := by
  induction cs with
  | nil => simp [InfoSubexpression.EvaluateChildren]
  | cons c cs ih =>
    cases b <;>
      by_cases hc : (InfoSubexpression.Evaluate R item c).1 = true <;>
      simp [InfoSubexpression.EvaluateChildren, hc, ih]

theorem EvaluateChildren_snd {Item : Type} (R : Resolver Item) (item : Option Item)
    (b : Bool) (cs : List InfoSubexpression) :
    (InfoSubexpression.EvaluateChildren R item b cs).2 =
      (evaluatedChildren (fun c => (InfoSubexpression.Evaluate R item c).1) b cs).flatMap
        (fun c => (InfoSubexpression.Evaluate R item c).2) := by
  induction cs with
  | nil => simp [InfoSubexpression.EvaluateChildren, evaluatedChildren]
  | cons c cs ih =>
    unfold evaluatedChildren at ih
    cases b <;>
      by_cases hc : (InfoSubexpression.Evaluate R item c).1 = true <;>
      simp [InfoSubexpression.EvaluateChildren, evaluatedChildren, hc, ih,
        List.takeWhile_cons, List.dropWhile_cons]

theorem evaluatedChildren_append_skipped {α : Type} (v : α → Bool) (b : Bool) (cs : List α) :
    evaluatedChildren v b cs ++ skippedChildren v b cs = cs := by
  unfold evaluatedChildren skippedChildren
  rw [List.append_assoc, List.take_append_drop, List.takeWhile_append_dropWhile]

theorem evaluatedChildren_dropLast {α : Type} (v : α → Bool) (b : Bool) (cs : List α) :
    ∀ c ∈ (evaluatedChildren v b cs).dropLast, v c = b := by
  induction cs with
  | nil => simp [evaluatedChildren]
  | cons a as ih =>
    unfold evaluatedChildren at ih ⊢
    by_cases ha : v a = b
    · have hne : List.takeWhile (fun c => v c == b) as ++
          List.take 1 (List.dropWhile (fun c => v c == b) as) = [] ∨
          List.takeWhile (fun c => v c == b) as ++
          List.take 1 (List.dropWhile (fun c => v c == b) as) ≠ [] := by
        exact Classical.em _
      rcases hne with hnil | hcons
      · simp [List.takeWhile_cons, List.dropWhile_cons, ha, hnil]
      · intro c hc
        simp only [List.takeWhile_cons, List.dropWhile_cons, ha, beq_self_eq_true, if_true,
          List.cons_append] at hc
        rw [List.dropLast_cons_of_ne_nil hcons] at hc
        rcases List.mem_cons.mp hc with h | h
        · rw [h]; exact ha
        · exact ih c h
    · simp [List.takeWhile_cons, List.dropWhile_cons, ha]

theorem evaluatedChildren_getLast {α : Type} (v : α → Bool) (b : Bool) (cs : List α)
    (h : ∃ c ∈ cs, v c ≠ b) :
    ∃ c, (evaluatedChildren v b cs).getLast? = some c ∧ v c ≠ b := by
  induction cs with
  | nil => simp at h
  | cons a as ih =>
    unfold evaluatedChildren at ih ⊢
    by_cases ha : v a = b
    · have h2 : ∃ c ∈ as, v c ≠ b := by
        obtain ⟨c, hc, hv⟩ := h
        rcases List.mem_cons.mp hc with h1 | h1
        · exact absurd (h1 ▸ ha) hv
        · exact ⟨c, h1, hv⟩
      obtain ⟨c, hc, hv⟩ := ih h2
      refine ⟨c, ?_, hv⟩
      simp only [List.takeWhile_cons, List.dropWhile_cons, ha, beq_self_eq_true, if_true,
        List.cons_append]
      rw [List.getLast?_cons, hc]
      rfl
    · exact ⟨a, by simp [List.takeWhile_cons, List.dropWhile_cons, ha], ha⟩

/-- C7: `Evaluate` on an AND group is true iff every child evaluates to true,
on an OR group iff some child evaluates to true.  The nodes it evaluates are
the group itself and then, in list order, the children up to and including the
first child that is false (AND) or true (OR), each with the nodes that child
evaluates; the children after that one are not evaluated.  The evaluated and
the skipped children make up the list of children, every evaluated child but
the last has the value that lets the loop go on, and when some child stops the
loop it is the last evaluated one. -/
theorem Evaluate_group_short_circuit {Item : Type} (R : Resolver Item) (item : Option Item)
    (cs : List InfoSubexpression) :
    ((InfoSubexpression.Evaluate R item (.InfoAssociativeGroup true cs)).1 = true ↔
      ∀ c ∈ cs, (InfoSubexpression.Evaluate R item c).1 = true) ∧
    ((InfoSubexpression.Evaluate R item (.InfoAssociativeGroup false cs)).1 = true ↔
      ∃ c ∈ cs, (InfoSubexpression.Evaluate R item c).1 = true) ∧
    (∀ b : Bool, (InfoSubexpression.Evaluate R item (.InfoAssociativeGroup b cs)).2 =
      .InfoAssociativeGroup b cs ::
        (evaluatedChildren (fun c => (InfoSubexpression.Evaluate R item c).1) b cs).flatMap
          (fun c => (InfoSubexpression.Evaluate R item c).2)) ∧
    (∀ b : Bool,
      evaluatedChildren (fun c => (InfoSubexpression.Evaluate R item c).1) b cs ++
        skippedChildren (fun c => (InfoSubexpression.Evaluate R item c).1) b cs = cs) ∧
    (∀ b : Bool,
      ∀ c ∈ (evaluatedChildren (fun c => (InfoSubexpression.Evaluate R item c).1) b cs).dropLast,
        (InfoSubexpression.Evaluate R item c).1 = b) ∧
    (∀ b : Bool, (∃ c ∈ cs, (InfoSubexpression.Evaluate R item c).1 ≠ b) →
      ∃ c, (evaluatedChildren (fun c => (InfoSubexpression.Evaluate R item c).1) b
          cs).getLast? = some c ∧ (InfoSubexpression.Evaluate R item c).1 ≠ b) := by
  refine ⟨?_, ?_, ?_, ?_, ?_, ?_⟩
  · simpa [InfoSubexpression.Evaluate] using EvaluateChildren_fst R item true cs
  · have h := EvaluateChildren_fst R item false cs
    simp only [InfoSubexpression.Evaluate]
    constructor
    · intro ht
      by_contra hno
      have hall : ∀ c ∈ cs, (InfoSubexpression.Evaluate R item c).1 = false := by
        intro c hc
        by_contra hcv
        exact hno ⟨c, hc, by simpa using hcv⟩
      rw [h.mpr hall] at ht
      exact Bool.noConfusion ht
    · rintro ⟨c, hc, hv⟩
      by_contra hf
      have hfalse : (InfoSubexpression.EvaluateChildren R item false cs).1 = false := by
        simpa using hf
      rw [h.mp hfalse c hc] at hv
      exact Bool.noConfusion hv
  · intro b
    simp [InfoSubexpression.Evaluate, EvaluateChildren_snd]
  · intro b
    exact evaluatedChildren_append_skipped _ b cs
  · intro b
    exact evaluatedChildren_dropLast _ b cs
  · intro b h
    exact evaluatedChildren_getLast _ b cs h

end INFO
